import Mathlib

/-!
Shallow embedding of the Box style-resolution module of the repository:
the unit resolver `rhythmOrString`, the prop-to-style mapper
`propToStyle` and `propsToStyle`, the border-rhythm compensator
`adjustPaddingForRhythm`, and the composed `borderWithRhythm` and
`boxStyle`, together with theorems settling the specification claims
about them.  JavaScript objects are modelled as insertion-ordered
association lists in which a later binding overrides an earlier one on
lookup, matching object-spread semantics; the ambient `warning` side
channel is modelled by returning the list of emitted warning messages
next to the computed style.
-/

namespace Este

/-- JavaScript values that flow through the style engine: numbers
(rationals, with `NaN` kept separate), strings, booleans and
`undefined`. -/
inductive JSVal where
  | num (q : ℚ)
  | nan
  | str (s : String)
  | bool (b : Bool)
  | undef
  deriving DecidableEq

/-- JavaScript truthiness for the values above: `NaN`, `0`, the empty
string, `false` and `undefined` are falsy. -/
def truthy : JSVal → Bool
  | JSVal.num q => q != 0
  | JSVal.nan => false
  | JSVal.str s => s != ""
  | JSVal.bool b => b
  | JSVal.undef => false

/-- JavaScript subtraction `value - w` as used by the compensator:
`undefined - w` is `NaN`, booleans coerce to `0` or `1`.  String
operands are filtered out by a typeof check before the subtraction in
the source, so their numeric parsing is not modelled. -/
def jsSub (v : JSVal) (w : ℚ) : JSVal :=
  match v with
  | JSVal.num q => JSVal.num (q - w)
  | JSVal.bool b => JSVal.num ((if b then 1 else 0) - w)
  | _ => JSVal.nan

/-- JavaScript `x >= 0` on the result of `jsSub`; `NaN >= 0` is false. -/
def geZero : JSVal → Bool
  | JSVal.num q => decide (0 ≤ q)
  | _ => false

/-- The `theme.typography` record: only `lineHeight` is consumed by the
core. -/
structure Typography where
  lineHeight : ℚ
  deriving DecidableEq

/-- The `theme.border` record. -/
structure ThemeBorder where
  width : ℚ
  radius : ℚ
  deriving DecidableEq

/-- The theme contract consumed by the style engine. -/
structure Theme where
  typography : Typography
  colors : List (String × String)
  border : ThemeBorder
  deriving DecidableEq

/-- A JavaScript object literal, as an insertion-ordered association
list; on lookup a later binding overrides an earlier one, which is
exactly the semantics of building an object by repeated spreads. -/
abbrev Obj := List (String × JSVal)

/-- Property lookup: the last binding of a key wins. -/
def getProp : Obj → String → Option JSVal
  | [], _ => none
  | e :: rest, k =>
    match getProp rest k with
    | some w => some w
    | none => if k = e.1 then some e.2 else none

/-- The unit resolver: a number (which for JavaScript includes `NaN`)
is multiplied by the theme line height, any other value is passed
through `value || 0`. -/
def rhythmOrString (theme : Theme) (value : JSVal) : JSVal :=
  match value with
  | JSVal.num q => JSVal.num (theme.typography.lineHeight * q)
  | JSVal.nan => JSVal.nan
  | v => if truthy v then v else JSVal.num 0

/-- The `directionMapping` table of the mapper. -/
def directionMapping (prop : String) : Option (String × String) :=
  if prop = "marginHorizontal" then some ("marginLeft", "marginRight")
  else if prop = "marginVertical" then some ("marginTop", "marginBottom")
  else if prop = "paddingHorizontal" then some ("paddingLeft", "paddingRight")
  else if prop = "paddingVertical" then some ("paddingTop", "paddingBottom")
  else none

/-- The switch group of plain pass-through props. -/
def plainProps : List String :=
  ["display", "flex", "flexDirection", "flexFlow", "flexGrow", "flexWrap",
   "alignItems", "alignContent", "justifyContent", "order", "flexShrink",
   "flexBasis", "alignSelf"]

/-- The switch group of simple `rhythmOrString` props. -/
def rhythmProps : List String :=
  ["marginBottom", "marginLeft", "marginRight", "marginTop",
   "paddingBottom", "paddingLeft", "paddingRight", "paddingTop",
   "width", "height", "maxWidth", "maxHeight", "minWidth", "minHeight"]

/-- `theme.colors[name]`: an unchecked property lookup that can come
back `undefined`. -/
def colorsLookup (theme : Theme) (name : String) : Option String :=
  theme.colors.lookup name

/-- `theme.colors[value]` as the `backgroundColor` style value; a
missing key propagates `undefined`.  Color names are strings in the
typed prop domain, so non-string keys are not modelled further. -/
def bgColorValue (theme : Theme) (value : JSVal) : JSVal :=
  match value with
  | JSVal.str s =>
    match colorsLookup theme s with
    | some c => JSVal.str c
    | none => JSVal.undef
  | _ => JSVal.undef

/-- The switch of the mapper over a single prop: plain pass-through
props, simple rhythm props, the four directional shorthands via
`directionMapping`, the `margin` and `padding` scalar shorthands,
`backgroundColor` and `borderRadius`; any other prop yields `none`
(the `null` default of the source). -/
def propToStyle (prop : String) (value : JSVal) (theme : Theme) : Option Obj :=
  if prop ∈ plainProps then some [(prop, value)]
  else if prop ∈ rhythmProps then some [(prop, rhythmOrString theme value)]
  else
    match directionMapping prop with
    | some d =>
      some [(d.1, rhythmOrString theme value), (d.2, rhythmOrString theme value)]
    | none =>
      if prop = "margin" then
        some [("marginBottom", rhythmOrString theme value),
              ("marginLeft", rhythmOrString theme value),
              ("marginRight", rhythmOrString theme value),
              ("marginTop", rhythmOrString theme value)]
      else if prop = "padding" then
        some [("paddingBottom", rhythmOrString theme value),
              ("paddingLeft", rhythmOrString theme value),
              ("paddingRight", rhythmOrString theme value),
              ("paddingTop", rhythmOrString theme value)]
      else if prop = "backgroundColor" then
        some [("backgroundColor", bgColorValue theme value)]
      else if prop = "borderRadius" then
        some [("borderRadius", if truthy value then value else JSVal.num theme.border.radius)]
      else none

/-- One step of the `Object.keys(props).reduce` in `propsToStyle`:
skip the `theme` key, otherwise spread the entries of the mapped prop
on top of the accumulated style. -/
def propStyleStep (theme : Theme) (style : Obj) (pv : String × JSVal) : Obj :=
  if pv.1 = "theme" then style
  else
    match propToStyle pv.1 pv.2 theme with
    | none => style
    | some propStyle => style ++ propStyle

/-- The mapper: fold the request in enumeration order. -/
def propsToStyle (theme : Theme) (props : Obj) : Obj :=
  props.foldl (propStyleStep theme) []

/-- The rhythm warning text emitted for an uncompensable padding. -/
def warningMsg (paddingProp direction : String) : String :=
  "Increase " ++ paddingProp ++ " to ensure " ++ direction ++
    " rhythm. Use suppressRhythmWarning prop to suppress this warning."

/-- `s.toLowerCase()` on the ASCII edge names, written over the
character list so that it evaluates by kernel reduction. -/
def toLowerStr (s : String) : String :=
  String.mk (s.data.map Char.toLower)

/-- One iteration of the compensator reduce over the four edge names.
The first component is the JavaScript accumulator (the padding
overlay); the second collects the `warning` side effects. -/
def adjustStep (suppressRhythmWarning border : JSVal) (borderWidth : ℚ)
    (style : Obj) (acc : Obj × List String) (prop : String) : Obj × List String :=
  if border = JSVal.bool true ∨ border = JSVal.str (toLowerStr prop) then
    let paddingProp := "padding" ++ prop
    match getProp style paddingProp with
    | some (JSVal.str s) => (acc.1 ++ [(paddingProp, JSVal.str s)], acc.2)
    | pvOpt =>
      let paddingValue := pvOpt.getD JSVal.undef
      let canCompensate := truthy paddingValue && geZero (jsSub paddingValue borderWidth)
      if canCompensate = false ∧ truthy suppressRhythmWarning = true then ([], acc.2)
      else
        let direction := if prop = "Left" ∨ prop = "Right" then "horizontal" else "vertical"
        ((if canCompensate then [] else [("outline", JSVal.str "solid 1px red")]) ++
            acc.1 ++ [(paddingProp, jsSub paddingValue borderWidth)],
          acc.2 ++ if canCompensate then [] else [warningMsg paddingProp direction])
  else acc

/-- The compensator: a no-op when the border width is falsy, otherwise
a reduce over the four capitalized edge names in source order. -/
def adjustPaddingForRhythm (suppressRhythmWarning border : JSVal)
    (borderWidth : ℚ) (style : Obj) : Obj × List String :=
  if borderWidth = 0 then ([], [])
  else
    ["Bottom", "Left", "Right", "Top"].foldl
      (adjustStep suppressRhythmWarning border borderWidth style) ([], [])

/-- `s.charAt(0).toUpperCase() + s.slice(1)` for the ASCII side names. -/
def capitalize (s : String) : String :=
  match s.data with
  | [] => ""
  | c :: cs => String.mk (Char.toUpper c :: cs)

/-- The target border property name: `border` when the border prop is
`true`, else `border` followed by the capitalized side string. -/
def borderPropOf (props : Obj) : String :=
  match (getProp props "border").getD JSVal.undef with
  | JSVal.str s => "border" ++ capitalize s
  | _ => "border"

/-- `props.borderWidth || theme.border.width`: the request width only
when truthy (nonzero), otherwise the theme default.  The typed prop
domain supplies a number or nothing. -/
def borderWidthOf (theme : Theme) (props : Obj) : ℚ :=
  match getProp props "borderWidth" with
  | some (JSVal.num q) => if q = 0 then theme.border.width else q
  | _ => theme.border.width

/-- `props.borderColor ? theme.colors[props.borderColor] :
theme.colors.gray`, stringified the way a template literal does it: a
missing color key reads as the text `undefined`. -/
def borderColorOf (theme : Theme) (props : Obj) : String :=
  match getProp props "borderColor" with
  | some (JSVal.str s) =>
    if s = "" then (colorsLookup theme "gray").getD "undefined"
    else (colorsLookup theme s).getD "undefined"
  | _ => (colorsLookup theme "gray").getD "undefined"

/-- Template-literal rendering of the number slot; the claims only
exercise integer widths, where JavaScript prints `1` as the text `1`. -/
def qRepr (q : ℚ) : String :=
  if q.den = 1 then toString q.num else toString q

/-- The composed border shorthand string `solid <width>px <color>`. -/
def borderString (theme : Theme) (props : Obj) : String :=
  "solid " ++ qRepr (borderWidthOf theme props) ++ "px " ++ borderColorOf theme props

/-- `borderWithRhythm`: pass the style through untouched when
`props.border` is falsy; otherwise overlay the compensated padding and
the border shorthand string. -/
def borderWithRhythm (theme : Theme) (props : Obj) (style : Obj) : Obj × List String :=
  if truthy ((getProp props "border").getD JSVal.undef) = false then (style, [])
  else
    let padding := adjustPaddingForRhythm
      ((getProp props "suppressRhythmWarning").getD JSVal.undef)
      ((getProp props "border").getD JSVal.undef)
      (borderWidthOf theme props) style
    (padding.1 ++ [(borderPropOf props, JSVal.str (borderString theme props))], padding.2)

/-- The Box style function: map the props, then spread the border
overlay on top of the mapped style. -/
def boxStyle (theme : Theme) (props : Obj) : Obj × List String :=
  let style := propsToStyle theme props
  let b := borderWithRhythm theme props style
  (style ++ b.1, b.2)

/-- A concrete theme used by the concrete claim instances: line height
20, gray color `#999`, default border width 1 and radius 2. -/
def theme20 : Theme :=
  { typography := { lineHeight := 20 }
    colors := [("gray", "#999")]
    border := { width := 1, radius := 2 } }

/-- The spacing props of the request vocabulary: the simple rhythm
props, the four directional shorthands and the two scalar shorthands. -/
def spacingProps : List String :=
  rhythmProps ++
    ["marginHorizontal", "marginVertical", "paddingHorizontal",
     "paddingVertical", "margin", "padding"]

/-- The vertical spacing keys a computed style can contain. -/
def verticalKeys : List String :=
  ["marginTop", "marginBottom", "paddingTop", "paddingBottom",
   "height", "minHeight", "maxHeight"]

/-- A request value that is an integer rhythm multiple or the literal
`false`. -/
def intOrFalse (v : JSVal) : Prop :=
  (∃ n : ℤ, v = JSVal.num n) ∨ v = JSVal.bool false

section Lemmas

lemma getProp_append_of_some {b : Obj} {k : String} {v : JSVal}
    (a : Obj) (h : getProp b k = some v) : getProp (a ++ b) k = some v := by
  induction a with
  | nil => simpa using h
  | cons e a ih =>
    show getProp (e :: (a ++ b)) k = some v
    rw [getProp, ih]

lemma getProp_singleton (k : String) (v : JSVal) : getProp [(k, v)] k = some v := by
  simp [getProp]

lemma getProp_append_singleton (l : Obj) (k : String) (v : JSVal) :
    getProp (l ++ [(k, v)]) k = some v :=
  getProp_append_of_some l (getProp_singleton k v)

lemma getProp_mem {l : Obj} {k : String} {v : JSVal}
    (h : getProp l k = some v) : (k, v) ∈ l := by
  induction l with
  | nil => simp [getProp] at h
  | cons e rest ih =>
    rw [getProp] at h
    rcases hr : getProp rest k with _ | w
    · rw [hr] at h
      simp only [] at h
      split at h
      · rcases e with ⟨k', v'⟩
        obtain ⟨rfl, rfl⟩ : k = k' ∧ v = v' := by
          constructor
          · assumption
          · exact (Option.some_injective _ h).symm
        exact List.mem_cons_self _ _
      · exact absurd h (by simp)
    · rw [hr] at h
      obtain rfl : w = v := Option.some_injective _ h
      exact List.mem_cons_of_mem _ (ih hr)

lemma propStyleStep_append (theme : Theme) (style : Obj) (pv : String × JSVal) :
    propStyleStep theme style pv = style ++ propStyleStep theme [] pv := by
  unfold propStyleStep
  by_cases h : pv.1 = "theme"
  · simp [h]
  · rcases hc : propToStyle pv.1 pv.2 theme with _ | ps <;> simp [h, hc]

lemma foldl_propStyleStep_append (theme : Theme) :
    ∀ (l : Obj) (init : Obj),
      l.foldl (propStyleStep theme) init = init ++ l.foldl (propStyleStep theme) [] := by
  intro l
  induction l with
  | nil => intro init; simp
  | cons e l ih =>
    intro init
    rw [List.foldl_cons, List.foldl_cons, ih (propStyleStep theme init e),
      ih (propStyleStep theme [] e), propStyleStep_append theme init e,
      List.append_assoc]

lemma propsToStyle_append (theme : Theme) (l₁ l₂ : Obj) :
    propsToStyle theme (l₁ ++ l₂) = propsToStyle theme l₁ ++ propsToStyle theme l₂ := by
  unfold propsToStyle
  rw [List.foldl_append, foldl_propStyleStep_append theme l₂ (l₁.foldl (propStyleStep theme) [])]

lemma rhythmOrString_intOrFalse (theme : Theme) {v : JSVal} (h : intOrFalse v) :
    ∃ n : ℤ, rhythmOrString theme v = JSVal.num (theme.typography.lineHeight * n) := by
  rcases h with ⟨n, rfl⟩ | rfl
  · exact ⟨n, rfl⟩
  · exact ⟨0, by simp [rhythmOrString, truthy]⟩

lemma propToStyle_vertical (theme : Theme) {p : String} {v : JSVal} {obj : Obj}
    (hps : propToStyle p v theme = some obj)
    (hv : p ∈ spacingProps → intOrFalse v) :
    ∀ e ∈ obj, e.1 ∈ verticalKeys →
      ∃ n : ℤ, e.2 = JSVal.num (theme.typography.lineHeight * n) := by
  intro e he hk
  by_cases h1 : p ∈ plainProps
  · have hobj : obj = [(p, v)] := by
      unfold propToStyle at hps
      rw [if_pos h1] at hps
      exact (Option.some_injective _ hps).symm
    subst hobj
    obtain rfl : e = (p, v) := by simpa using he
    exfalso
    have hp : p ∈ verticalKeys := by simpa using hk
    simp only [verticalKeys, List.mem_cons, List.not_mem_nil, or_false] at hp
    rcases hp with rfl | rfl | rfl | rfl | rfl | rfl | rfl <;> simp [plainProps] at h1
  · by_cases h2 : p ∈ rhythmProps
    · have hobj : obj = [(p, rhythmOrString theme v)] := by
        unfold propToStyle at hps
        rw [if_neg h1, if_pos h2] at hps
        exact (Option.some_injective _ hps).symm
      subst hobj
      obtain rfl : e = (p, rhythmOrString theme v) := by simpa using he
      have hsp : p ∈ spacingProps := by
        unfold spacingProps
        exact List.mem_append_left _ h2
      simpa using rhythmOrString_intOrFalse theme (hv hsp)
    · rcases hd : directionMapping p with _ | d
      · by_cases h4 : p = "margin"
        · subst h4
          have hobj : obj =
              [("marginBottom", rhythmOrString theme v),
               ("marginLeft", rhythmOrString theme v),
               ("marginRight", rhythmOrString theme v),
               ("marginTop", rhythmOrString theme v)] := by
            unfold propToStyle at hps
            rw [if_neg h1, if_neg h2, hd] at hps
            simp at hps
            exact hps.symm
          subst hobj
          have hval := rhythmOrString_intOrFalse theme (hv (by decide))
          rcases (by simpa using he :
              e = ("marginBottom", rhythmOrString theme v) ∨
                e = ("marginLeft", rhythmOrString theme v) ∨
                  e = ("marginRight", rhythmOrString theme v) ∨
                    e = ("marginTop", rhythmOrString theme v)) with rfl | rfl | rfl | rfl <;>
            simpa using hval
        · by_cases h5 : p = "padding"
          · subst h5
            have hobj : obj =
                [("paddingBottom", rhythmOrString theme v),
                 ("paddingLeft", rhythmOrString theme v),
                 ("paddingRight", rhythmOrString theme v),
                 ("paddingTop", rhythmOrString theme v)] := by
              unfold propToStyle at hps
              rw [if_neg h1, if_neg h2, hd] at hps
              simp at hps
              exact hps.symm
            subst hobj
            have hval := rhythmOrString_intOrFalse theme (hv (by decide))
            rcases (by simpa using he :
                e = ("paddingBottom", rhythmOrString theme v) ∨
                  e = ("paddingLeft", rhythmOrString theme v) ∨
                    e = ("paddingRight", rhythmOrString theme v) ∨
                      e = ("paddingTop", rhythmOrString theme v)) with rfl | rfl | rfl | rfl <;>
              simpa using hval
          · by_cases h6 : p = "backgroundColor"
            · subst h6
              have hobj : obj = [("backgroundColor", bgColorValue theme v)] := by
                unfold propToStyle at hps
                rw [if_neg h1, if_neg h2, hd] at hps
                simp at hps
                exact hps.symm
              subst hobj
              obtain rfl : e = ("backgroundColor", bgColorValue theme v) := by simpa using he
              exact absurd (by simpa using hk) (by decide)
            · by_cases h7 : p = "borderRadius"
              · subst h7
                have hobj : obj =
                    [("borderRadius", if truthy v then v else JSVal.num theme.border.radius)] := by
                  unfold propToStyle at hps
                  rw [if_neg h1, if_neg h2, hd] at hps
                  simp at hps
                  exact hps.symm
                subst hobj
                obtain rfl :
                    e = ("borderRadius", if truthy v then v else JSVal.num theme.border.radius) := by
                  simpa using he
                exact absurd (by simpa using hk) (by decide)
              · exfalso
                unfold propToStyle at hps
                rw [if_neg h1, if_neg h2, hd] at hps
                simp [h4, h5, h6, h7] at hps
      · have hobj : obj = [(d.1, rhythmOrString theme v), (d.2, rhythmOrString theme v)] := by
          unfold propToStyle at hps
          rw [if_neg h1, if_neg h2, hd] at hps
          simpa using hps.symm
        have hsp : p ∈ spacingProps := by
          unfold directionMapping at hd
          split_ifs at hd with a b c dd
          · subst a; decide
          · subst b; decide
          · subst c; decide
          · subst dd; decide
        have hval := rhythmOrString_intOrFalse theme (hv hsp)
        subst hobj
        rcases (by simpa using he :
            e = (d.1, rhythmOrString theme v) ∨ e = (d.2, rhythmOrString theme v)) with rfl | rfl <;>
          simpa using hval

lemma propsToStyle_vertical (theme : Theme) :
    ∀ (l : Obj) (acc : Obj),
      (∀ e ∈ acc, e.1 ∈ verticalKeys →
        ∃ n : ℤ, e.2 = JSVal.num (theme.typography.lineHeight * n)) →
      (∀ e ∈ l, e.1 ∈ spacingProps → intOrFalse e.2) →
      ∀ e ∈ l.foldl (propStyleStep theme) acc, e.1 ∈ verticalKeys →
        ∃ n : ℤ, e.2 = JSVal.num (theme.typography.lineHeight * n) := by
  intro l
  induction l with
  | nil => intro acc hacc _; simpa using hacc
  | cons pv l ih =>
    intro acc hacc hl
    rw [List.foldl_cons]
    apply ih
    · intro e he hk
      unfold propStyleStep at he
      by_cases ht : pv.1 = "theme"
      · rw [if_pos ht] at he
        exact hacc e he hk
      · rw [if_neg ht] at he
        rcases hc : propToStyle pv.1 pv.2 theme with _ | ps
        · rw [hc] at he
          exact hacc e he hk
        · rw [hc] at he
          rcases List.mem_append.mp he with h | h
          · exact hacc e h hk
          · exact propToStyle_vertical theme hc (hl pv (List.mem_cons_self _ _)) e h hk
    · intro e he hsp
      exact hl e (List.mem_cons_of_mem _ he) hsp

end Lemmas

section Claims

/-- C5: the Unit Resolver is a total function: a number n resolves to
n times the theme line height, a non-empty string passes through
unchanged, and false, undefined, the number 0 and the empty string all
resolve to 0. -/
theorem C5_unit_resolver_total : ∀ (theme : Theme) (n : ℚ),
    rhythmOrString theme (JSVal.num n) = JSVal.num (n * theme.typography.lineHeight)
    ∧ (∀ s : String, s ≠ "" → rhythmOrString theme (JSVal.str s) = JSVal.str s)
    ∧ rhythmOrString theme (JSVal.bool false) = JSVal.num 0
    ∧ rhythmOrString theme JSVal.undef = JSVal.num 0
    ∧ rhythmOrString theme (JSVal.num 0) = JSVal.num 0
    ∧ rhythmOrString theme (JSVal.str "") = JSVal.num 0 := by
  intro theme n
  refine ⟨?_, ?_, ?_, ?_, ?_, ?_⟩
  · simp [rhythmOrString, mul_comm]
  · intro s hs
    simp [rhythmOrString, truthy, hs]
  · simp [rhythmOrString, truthy]
  · simp [rhythmOrString, truthy]
  · simp [rhythmOrString]
  · simp [rhythmOrString, truthy]

/-- Witness for C5 at a concrete theme, number and non-empty string. -/
theorem C5_witness :
    rhythmOrString theme20 (JSVal.num 3) = JSVal.num 60
    ∧ rhythmOrString theme20 (JSVal.str "10%") = JSVal.str "10%" := by
  constructor
  · rw [(C5_unit_resolver_total theme20 3).1]
    norm_num [theme20]
  · exact (C5_unit_resolver_total theme20 0).2.1 "10%" (by decide)

/-- C3: contrary to the claimed pass-through special case, the code
performs the unchecked `theme.colors` lookup for every value, including
the literal `transparent`; with a theme whose colors lack that key the
output entry is `undefined`, while a present color name resolves
through the table. -/
theorem C3_transparent_looked_up :
    getProp (propsToStyle theme20 [("backgroundColor", JSVal.str "transparent")]) "backgroundColor"
      = some JSVal.undef
    ∧ getProp (propsToStyle theme20 [("backgroundColor", JSVal.str "gray")]) "backgroundColor"
      = some (JSVal.str "#999") := by
  constructor <;>
    simp [propsToStyle, propStyleStep, propToStyle, plainProps, rhythmProps, directionMapping,
      bgColorValue, colorsLookup, theme20, getProp, List.lookup]

/-- C1 counterexample: with the same two props enumerated as marginLeft
before margin, the scalar shorthand overwrites the specific prop and the
computed marginLeft is 20, not the claimed 10, so the output depends on
the enumeration order and no fixed precedence exists. -/
theorem C1_counterexample :
    getProp (propsToStyle theme20
        [("marginLeft", JSVal.num (1/2)), ("margin", JSVal.num 1)]) "marginLeft"
      = some (JSVal.num 20)
    ∧ getProp (propsToStyle theme20
        [("marginLeft", JSVal.num (1/2)), ("margin", JSVal.num 1)]) "marginLeft"
      ≠ some (JSVal.num 10) := by
  have h : getProp (propsToStyle theme20
      [("marginLeft", JSVal.num (1/2)), ("margin", JSVal.num 1)]) "marginLeft"
      = some (JSVal.num 20) := by
    simp [propsToStyle, propStyleStep, propToStyle, plainProps, rhythmProps, directionMapping,
      rhythmOrString, getProp, theme20]
  refine ⟨h, ?_⟩
  rw [h]
  simp only [ne_eq, Option.some.injEq, JSVal.num.injEq]
  norm_num

/-- C1 amended: the mapper applies no precedence of its own; it merges
per-prop outputs in the enumeration order of the request, a later prop
overriding an earlier one on shared output keys.  With margin enumerated
before marginLeft the claimed example values hold (marginLeft 10, the
other edges 20); with the reverse enumeration the scalar shorthand wins
and marginLeft is 20.  In general mapping a request split into two
segments concatenates the two outputs, so later segments always
override. -/
theorem C1_amended :
    (getProp (propsToStyle theme20
        [("margin", JSVal.num 1), ("marginLeft", JSVal.num (1/2))]) "marginLeft"
      = some (JSVal.num 10)
    ∧ getProp (propsToStyle theme20
        [("margin", JSVal.num 1), ("marginLeft", JSVal.num (1/2))]) "marginRight"
      = some (JSVal.num 20)
    ∧ getProp (propsToStyle theme20
        [("margin", JSVal.num 1), ("marginLeft", JSVal.num (1/2))]) "marginTop"
      = some (JSVal.num 20)
    ∧ getProp (propsToStyle theme20
        [("margin", JSVal.num 1), ("marginLeft", JSVal.num (1/2))]) "marginBottom"
      = some (JSVal.num 20))
    ∧ getProp (propsToStyle theme20
        [("marginLeft", JSVal.num (1/2)), ("margin", JSVal.num 1)]) "marginLeft"
      = some (JSVal.num 20)
    ∧ ∀ (theme : Theme) (l₁ l₂ : Obj),
        propsToStyle theme (l₁ ++ l₂) = propsToStyle theme l₁ ++ propsToStyle theme l₂ := by
  refine ⟨⟨?_, ?_, ?_, ?_⟩, ?_, propsToStyle_append⟩ <;>
    simp [propsToStyle, propStyleStep, propToStyle, plainProps, rhythmProps, directionMapping,
      rhythmOrString, getProp, theme20]
  norm_num

/-- C2 counterexample: for the request with border true and paddingTop
false, the resolved paddingTop 0 is not left unmodified; the overlay
sets it to 0 minus the border width, that is -1. -/
theorem C2_counterexample :
    getProp (boxStyle theme20
        [("border", JSVal.bool true), ("paddingTop", JSVal.bool false)]).1 "paddingTop"
      = some (JSVal.num (-1))
    ∧ getProp (boxStyle theme20
        [("border", JSVal.bool true), ("paddingTop", JSVal.bool false)]).1 "paddingTop"
      ≠ some (JSVal.num 0) := by
  have h : getProp (boxStyle theme20
      [("border", JSVal.bool true), ("paddingTop", JSVal.bool false)]).1 "paddingTop"
      = some (JSVal.num (-1)) := by
    simp [boxStyle, propsToStyle, propStyleStep, propToStyle, plainProps, rhythmProps,
      directionMapping, rhythmOrString, truthy, theme20, borderWithRhythm, borderWidthOf,
      borderPropOf, borderColorOf, borderString, qRepr, colorsLookup, adjustPaddingForRhythm,
      adjustStep, jsSub, geZero, warningMsg, capitalize, toLowerStr, getProp]
  refine ⟨h, ?_⟩
  rw [h]
  simp only [ne_eq, Option.some.injEq, JSVal.num.injEq]
  norm_num

/-- C2 amended: the failing request does emit warnings and does gain
the red outline, but paddingTop is set to the compensation difference
0 - 1 = -1 rather than being left at 0, and the absent edges receive
NaN paddings from the same unconditional subtraction. -/
theorem C2_amended :
    (boxStyle theme20 [("border", JSVal.bool true), ("paddingTop", JSVal.bool false)]).2 ≠ []
    ∧ getProp (boxStyle theme20
        [("border", JSVal.bool true), ("paddingTop", JSVal.bool false)]).1 "outline"
      = some (JSVal.str "solid 1px red")
    ∧ getProp (boxStyle theme20
        [("border", JSVal.bool true), ("paddingTop", JSVal.bool false)]).1 "paddingTop"
      = some (JSVal.num (-1))
    ∧ getProp (boxStyle theme20
        [("border", JSVal.bool true), ("paddingTop", JSVal.bool false)]).1 "paddingBottom"
      = some JSVal.nan := by
  refine ⟨?_, ?_, ?_, ?_⟩ <;>
    simp [boxStyle, propsToStyle, propStyleStep, propToStyle, plainProps, rhythmProps,
      directionMapping, rhythmOrString, truthy, theme20, borderWithRhythm, borderWidthOf,
      borderPropOf, borderColorOf, borderString, qRepr, colorsLookup, adjustPaddingForRhythm,
      adjustStep, jsSub, geZero, warningMsg, capitalize, toLowerStr, getProp]

/-- C4: with line height 20 and default border width 1, the request
with border true and paddingTop 1 computes paddingTop 19 and a border
key equal to solid 1px followed by the gray theme color; in general a
compensable affected edge (nonzero numeric padding whose value minus
the width is at least 0) contributes exactly the reduced padding to the
overlay, and whenever the border prop is truthy the overlay ends with
the border property set to the composed shorthand string. -/
theorem C4_border_compensation :
    (getProp (boxStyle theme20
          [("border", JSVal.bool true), ("paddingTop", JSVal.num 1)]).1 "paddingTop"
        = some (JSVal.num 19)
      ∧ getProp (boxStyle theme20
          [("border", JSVal.bool true), ("paddingTop", JSVal.num 1)]).1 "border"
        = some (JSVal.str "solid 1px #999"))
    ∧ (∀ (suppress border : JSVal) (w : ℚ) (style : Obj) (acc : Obj × List String)
        (prop : String) (p : ℚ),
        (border = JSVal.bool true ∨ border = JSVal.str (toLowerStr prop)) →
        getProp style ("padding" ++ prop) = some (JSVal.num p) →
        p ≠ 0 → 0 ≤ p - w →
        adjustStep suppress border w style acc prop
          = (acc.1 ++ [("padding" ++ prop, JSVal.num (p - w))], acc.2))
    ∧ (∀ (theme : Theme) (props style : Obj),
        truthy ((getProp props "border").getD JSVal.undef) = true →
        getProp (borderWithRhythm theme props style).1 (borderPropOf props)
          = some (JSVal.str (borderString theme props))) := by
  refine ⟨⟨?_, ?_⟩, ?_, ?_⟩
  · simp [boxStyle, propsToStyle, propStyleStep, propToStyle, plainProps, rhythmProps,
      directionMapping, rhythmOrString, truthy, theme20, borderWithRhythm, borderWidthOf,
      borderPropOf, borderColorOf, borderString, qRepr, colorsLookup, adjustPaddingForRhythm,
      adjustStep, jsSub, geZero, warningMsg, capitalize, toLowerStr, getProp]
    norm_num
  · simp [boxStyle, propsToStyle, propStyleStep, propToStyle, plainProps, rhythmProps,
      directionMapping, rhythmOrString, truthy, theme20, borderWithRhythm, borderWidthOf,
      borderPropOf, borderColorOf, borderString, qRepr, colorsLookup, adjustPaddingForRhythm,
      adjustStep, jsSub, geZero, warningMsg, capitalize, toLowerStr, getProp]
    decide
  · intro suppress border w style acc prop p hadj hpv hp0 hpw
    simp [adjustStep, hadj, hpv, truthy, geZero, jsSub, hp0, hpw]
  · intro theme props style hb
    have hcond : ¬ (truthy ((getProp props "border").getD JSVal.undef) = false) := by
      simp [hb]
    rw [borderWithRhythm, if_neg hcond]
    exact getProp_append_singleton _ _ _

/-- Witness for C4: the general parts applied at a concrete compensable
edge and at a concrete bordered request. -/
theorem C4_witness :
    adjustStep JSVal.undef (JSVal.bool true) 1 [("paddingTop", JSVal.num 20)] ([], []) "Top"
      = ([("paddingTop", JSVal.num 19)], [])
    ∧ getProp (borderWithRhythm theme20 [("border", JSVal.bool true)] []).1
        (borderPropOf [("border", JSVal.bool true)])
      = some (JSVal.str (borderString theme20 [("border", JSVal.bool true)])) := by
  constructor
  · have h := C4_border_compensation.2.1 JSVal.undef (JSVal.bool true) 1
      [("paddingTop", JSVal.num 20)] ([], []) "Top" 20 (Or.inl rfl) (by decide)
      (by norm_num) (by norm_num)
    rw [h]
    norm_num
    decide
  · exact C4_border_compensation.2.2 theme20 [("border", JSVal.bool true)] [] (by decide)

/-- C6: with suppressRhythmWarning set the failing request emits no
warning and the computed style has no outline key; in general, a
compensation failure on an edge under suppression discards the entire
padding overlay accumulated so far by the edge reduce and contributes
no warning and no outline. -/
theorem C6_suppressed_failure :
    ((boxStyle theme20 [("border", JSVal.bool true), ("paddingTop", JSVal.bool false),
        ("suppressRhythmWarning", JSVal.bool true)]).2 = []
      ∧ getProp (boxStyle theme20 [("border", JSVal.bool true), ("paddingTop", JSVal.bool false),
          ("suppressRhythmWarning", JSVal.bool true)]).1 "outline" = none)
    ∧ ∀ (suppress border : JSVal) (w : ℚ) (style : Obj) (acc : Obj × List String)
        (prop : String) (pvOpt : Option JSVal),
        truthy suppress = true →
        (border = JSVal.bool true ∨ border = JSVal.str (toLowerStr prop)) →
        getProp style ("padding" ++ prop) = pvOpt →
        (∀ s, pvOpt ≠ some (JSVal.str s)) →
        (truthy (pvOpt.getD JSVal.undef) && geZero (jsSub (pvOpt.getD JSVal.undef) w)) = false →
        adjustStep suppress border w style acc prop = ([], acc.2) := by
  refine ⟨⟨?_, ?_⟩, ?_⟩
  · simp [boxStyle, propsToStyle, propStyleStep, propToStyle, plainProps, rhythmProps,
      directionMapping, rhythmOrString, truthy, theme20, borderWithRhythm, borderWidthOf,
      borderPropOf, borderColorOf, borderString, qRepr, colorsLookup, adjustPaddingForRhythm,
      adjustStep, jsSub, geZero, warningMsg, capitalize, toLowerStr, getProp]
  · simp [boxStyle, propsToStyle, propStyleStep, propToStyle, plainProps, rhythmProps,
      directionMapping, rhythmOrString, truthy, theme20, borderWithRhythm, borderWidthOf,
      borderPropOf, borderColorOf, borderString, qRepr, colorsLookup, adjustPaddingForRhythm,
      adjustStep, jsSub, geZero, warningMsg, capitalize, toLowerStr, getProp]
  · intro suppress border w style acc prop pvOpt hsup hadj hpv hstr hcan
    subst hpv
    rcases h : getProp style ("padding" ++ prop) with _ | v
    · rw [h] at hcan
      simp [adjustStep, hadj, h, hsup]
      simpa using hcan
    · rcases v with q | _ | s | b | _
      · rw [h] at hcan
        simp [adjustStep, hadj, h, hsup]
        simpa using hcan
      · rw [h] at hcan
        simp [adjustStep, hadj, h, hsup]
        simpa using hcan
      · exact absurd h (hstr s)
      · rw [h] at hcan
        simp [adjustStep, hadj, h, hsup]
        simpa using hcan
      · rw [h] at hcan
        simp [adjustStep, hadj, h, hsup]
        simpa using hcan

/-- Witness for C6: a suppressed failure on the Top edge discards a
previously accumulated paddingLeft entry. -/
theorem C6_witness :
    adjustStep (JSVal.bool true) (JSVal.bool true) 1 [] ([("paddingLeft", JSVal.num 19)], []) "Top"
      = ([], []) := by
  have h := C6_suppressed_failure.2 (JSVal.bool true) (JSVal.bool true) 1 []
    ([("paddingLeft", JSVal.num 19)], []) "Top" (getProp [] ("padding" ++ "Top")) (by decide)
    (Or.inl rfl) rfl (by intro s; simp [getProp]) (by decide)
  simpa using h

/-- C7 counterexample: a request that explicitly gives borderWidth 0 is
rendered with the theme default width 1, not with 0, because the source
combines the two with a truthiness-or. -/
theorem C7_counterexample :
    getProp (borderWithRhythm theme20
        [("border", JSVal.bool true), ("borderWidth", JSVal.num 0)] []).1 "border"
      = some (JSVal.str "solid 1px #999")
    ∧ getProp (borderWithRhythm theme20
        [("border", JSVal.bool true), ("borderWidth", JSVal.num 0)] []).1 "border"
      ≠ some (JSVal.str "solid 0px #999") := by
  have h : getProp (borderWithRhythm theme20
      [("border", JSVal.bool true), ("borderWidth", JSVal.num 0)] []).1 "border"
      = some (JSVal.str "solid 1px #999") := by
    simp [borderWithRhythm, borderWidthOf, borderPropOf, borderColorOf, borderString, qRepr,
      colorsLookup, adjustPaddingForRhythm, adjustStep, jsSub, geZero, warningMsg, capitalize,
      toLowerStr, getProp, truthy, theme20]
    decide
  refine ⟨h, ?_⟩
  rw [h]
  simp

/-- C7 amended: the border stroke width used for the compensation and
for the shorthand string is props.borderWidth only when that value is
truthy (a nonzero number); a borderWidth of 0, like an absent one,
falls back to theme.border.width.  The last part records that a truthy
border uses that single width in both places. -/
theorem C7_amended :
    (∀ (theme : Theme) (props : Obj) (q : ℚ),
        getProp props "borderWidth" = some (JSVal.num q) → q ≠ 0 →
        borderWidthOf theme props = q)
    ∧ (∀ (theme : Theme) (props : Obj),
        getProp props "borderWidth" = some (JSVal.num 0) →
        borderWidthOf theme props = theme.border.width)
    ∧ (∀ (theme : Theme) (props : Obj),
        getProp props "borderWidth" = none →
        borderWidthOf theme props = theme.border.width)
    ∧ (∀ (theme : Theme) (props style : Obj),
        truthy ((getProp props "border").getD JSVal.undef) = true →
        (borderWithRhythm theme props style).1
          = (adjustPaddingForRhythm ((getProp props "suppressRhythmWarning").getD JSVal.undef)
                ((getProp props "border").getD JSVal.undef) (borderWidthOf theme props) style).1
              ++ [(borderPropOf props, JSVal.str (borderString theme props))]) := by
  refine ⟨?_, ?_, ?_, ?_⟩
  · intro theme props q h hq
    simp [borderWidthOf, h, hq]
  · intro theme props h
    simp [borderWidthOf, h]
  · intro theme props h
    simp [borderWidthOf, h]
  · intro theme props style hb
    have hcond : ¬ (truthy ((getProp props "border").getD JSVal.undef) = false) := by
      simp [hb]
    rw [borderWithRhythm, if_neg hcond]

/-- Witness for C7 amended: a truthy width 5 is used as given, width 0
falls back to the theme default. -/
theorem C7_witness :
    borderWidthOf theme20 [("borderWidth", JSVal.num 5)] = 5
    ∧ borderWidthOf theme20 [("borderWidth", JSVal.num 0)] = theme20.border.width := by
  exact ⟨C7_amended.1 theme20 [("borderWidth", JSVal.num 5)] 5 (by decide) (by norm_num),
    C7_amended.2.1 theme20 [("borderWidth", JSVal.num 0)] (by decide)⟩

/-- C9: a backgroundColor or borderColor naming a key absent from
theme.colors does not fail or raise (the embedding is total); the
unchecked lookup result is propagated: the mapped backgroundColor entry
is undefined, and the border color slot of the shorthand string is the
stringified undefined. -/
theorem C9_missing_color_propagates : ∀ (theme : Theme) (c : String),
    colorsLookup theme c = none → c ≠ "" →
    getProp (propsToStyle theme [("backgroundColor", JSVal.str c)]) "backgroundColor"
      = some JSVal.undef
    ∧ borderColorOf theme [("border", JSVal.bool true), ("borderColor", JSVal.str c)]
      = "undefined"
    ∧ getProp (borderWithRhythm theme
          [("border", JSVal.bool true), ("borderColor", JSVal.str c)] []).1 "border"
      = some (JSVal.str (borderString theme
          [("border", JSVal.bool true), ("borderColor", JSVal.str c)])) := by
  intro theme c hnone hne
  refine ⟨?_, ?_, ?_⟩
  · simp [propsToStyle, propStyleStep, propToStyle, plainProps, rhythmProps, directionMapping,
      bgColorValue, hnone, getProp]
  · simp [borderColorOf, getProp, hne, hnone]
  · have hcond : ¬ (truthy ((getProp [("border", JSVal.bool true), ("borderColor", JSVal.str c)]
        "border").getD JSVal.undef) = false) := by
      simp [getProp, truthy]
    rw [borderWithRhythm, if_neg hcond]
    have hbp : borderPropOf [("border", JSVal.bool true), ("borderColor", JSVal.str c)]
        = "border" := by
      simp [borderPropOf, getProp]
    rw [hbp]
    exact getProp_append_singleton _ _ _

/-- Witness for C9 at a concrete theme and missing color name. -/
theorem C9_witness :
    getProp (propsToStyle theme20 [("backgroundColor", JSVal.str "teal")]) "backgroundColor"
      = some JSVal.undef
    ∧ borderColorOf theme20 [("border", JSVal.bool true), ("borderColor", JSVal.str "teal")]
      = "undefined" := by
  have h := C9_missing_color_propagates theme20 "teal" (by decide) (by decide)
  exact ⟨h.1, h.2.1⟩

/-- C10: a truthy border string other than the four lowercase side
names adjusts no padding edge (the compensator yields the empty overlay
and no warnings), while the overlay still gains a border key named
after the capitalized string, set to the shorthand string. -/
theorem C10_unknown_side : ∀ (theme : Theme) (props style : Obj) (s : String),
    getProp props "border" = some (JSVal.str s) → s ≠ "" →
    s ∉ ["top", "bottom", "left", "right"] →
    adjustPaddingForRhythm ((getProp props "suppressRhythmWarning").getD JSVal.undef)
        (JSVal.str s) (borderWidthOf theme props) style = ([], [])
    ∧ getProp (borderWithRhythm theme props style).1 ("border" ++ capitalize s)
      = some (JSVal.str (borderString theme props)) := by
  intro theme props style s hs hne hmem
  obtain ⟨h1, h2, h3, h4⟩ : s ≠ "top" ∧ s ≠ "bottom" ∧ s ≠ "left" ∧ s ≠ "right" := by
    simpa using hmem
  have hB : toLowerStr "Bottom" = "bottom" := by decide
  have hL : toLowerStr "Left" = "left" := by decide
  have hR : toLowerStr "Right" = "right" := by decide
  have hT : toLowerStr "Top" = "top" := by decide
  have hadj : adjustPaddingForRhythm ((getProp props "suppressRhythmWarning").getD JSVal.undef)
      (JSVal.str s) (borderWidthOf theme props) style = ([], []) := by
    unfold adjustPaddingForRhythm
    by_cases hw : borderWidthOf theme props = 0
    · rw [if_pos hw]
    · rw [if_neg hw]
      simp [adjustStep, hB, hL, hR, hT, h1, h2, h3, h4]
  refine ⟨hadj, ?_⟩
  have hcond : ¬ (truthy ((getProp props "border").getD JSVal.undef) = false) := by
    simp [hs, truthy, hne]
  have hbp : borderPropOf props = "border" ++ capitalize s := by
    simp [borderPropOf, hs]
  rw [borderWithRhythm, if_neg hcond]
  simp only [hs, Option.getD_some]
  rw [hadj, hbp]
  exact getProp_append_singleton _ _ _

/-- Witness for C10 with the side string diagonal. -/
theorem C10_witness :
    adjustPaddingForRhythm
        ((getProp [("border", JSVal.str "diagonal")] "suppressRhythmWarning").getD JSVal.undef)
        (JSVal.str "diagonal") (borderWidthOf theme20 [("border", JSVal.str "diagonal")]) []
      = ([], [])
    ∧ getProp (borderWithRhythm theme20 [("border", JSVal.str "diagonal")] []).1 "borderDiagonal"
      = some (JSVal.str "solid 1px #999") := by
  have h := C10_unknown_side theme20 [("border", JSVal.str "diagonal")] [] "diagonal"
    (by decide) (by decide) (by decide)
  refine ⟨h.1, ?_⟩
  have h2 := h.2
  rw [(by decide : ("border" ++ capitalize "diagonal") = "borderDiagonal")] at h2
  exact h2.trans (by decide)

/-- C8 counterexample: with line height 20 the all-numeric borderless
request marginTop 0.5 computes marginTop 10 with no outline present,
and 10 is not an integer multiple of 20; moreover with a border even
the successfully compensated paddingTop of the claimed example is 19,
again not an integer multiple, so the unrestricted invariant fails. -/
theorem C8_counterexample :
    (getProp (boxStyle theme20 [("marginTop", JSVal.num (1/2))]).1 "marginTop"
        = some (JSVal.num 10)
      ∧ getProp (boxStyle theme20 [("marginTop", JSVal.num (1/2))]).1 "outline" = none
      ∧ ∀ n : ℤ, (10 : ℚ) ≠ 20 * n)
    ∧ (getProp (boxStyle theme20
          [("border", JSVal.bool true), ("paddingTop", JSVal.num 1)]).1 "paddingTop"
        = some (JSVal.num 19)
      ∧ ∀ n : ℤ, (19 : ℚ) ≠ 20 * n) := by
  refine ⟨⟨?_, ?_, ?_⟩, ?_, ?_⟩
  · simp [boxStyle, propsToStyle, propStyleStep, propToStyle, plainProps, rhythmProps,
      directionMapping, rhythmOrString, truthy, theme20, borderWithRhythm, getProp]
    norm_num
  · simp [boxStyle, propsToStyle, propStyleStep, propToStyle, plainProps, rhythmProps,
      directionMapping, rhythmOrString, truthy, theme20, borderWithRhythm, getProp]
  · intro n h
    have h1 : ((20 * n : ℤ) : ℚ) = 10 := by push_cast; linarith
    have h2 : (20 * n : ℤ) = 10 := by exact_mod_cast h1
    omega
  · simp [boxStyle, propsToStyle, propStyleStep, propToStyle, plainProps, rhythmProps,
      directionMapping, rhythmOrString, truthy, theme20, borderWithRhythm, borderWidthOf,
      borderPropOf, borderColorOf, borderString, qRepr, colorsLookup, adjustPaddingForRhythm,
      adjustStep, jsSub, geZero, warningMsg, capitalize, toLowerStr, getProp]
    norm_num
  · intro n h
    have h1 : ((20 * n : ℤ) : ℚ) = 19 := by push_cast; linarith
    have h2 : (20 * n : ℤ) = 19 := by exact_mod_cast h1
    omega

/-- C8 amended: for every borderless request whose spacing values are
all integer rhythm multiples or false, every vertical spacing property
present in the computed style is an exact integer multiple of the theme
line height.  Fractional multiples scale off the grid and border
compensation shifts even successfully compensated padding off the grid,
so both are excluded by the counterexample. -/
theorem C8_amended : ∀ (theme : Theme) (props : Obj),
    (∀ e ∈ props, e.1 ∈ spacingProps → intOrFalse e.2) →
    truthy ((getProp props "border").getD JSVal.undef) = false →
    ∀ k ∈ verticalKeys, ∀ v, getProp (boxStyle theme props).1 k = some v →
    ∃ n : ℤ, v = JSVal.num (theme.typography.lineHeight * n) := by
  intro theme props hsp hb k hk v hv
  have hbw : borderWithRhythm theme props (propsToStyle theme props)
      = (propsToStyle theme props, []) := by
    rw [borderWithRhythm, if_pos hb]
  have hbox : (boxStyle theme props).1
      = propsToStyle theme props ++ propsToStyle theme props := by
    simp [boxStyle, hbw]
  rw [hbox] at hv
  have hmem' : (k, v) ∈ propsToStyle theme props := by
    rcases List.mem_append.mp (getProp_mem hv) with h | h <;> exact h
  simpa using propsToStyle_vertical theme props [] (by simp) hsp (k, v) hmem' hk

/-- Witness for C8 amended: an integer marginTop of 2 resolves to 40,
an integer multiple of the line height 20. -/
theorem C8_witness :
    ∃ n : ℤ, JSVal.num 40 = JSVal.num (theme20.typography.lineHeight * n) := by
  refine C8_amended theme20 [("marginTop", JSVal.num 2), ("display", JSVal.str "flex")]
    ?_ (by decide) "marginTop" (by decide) (JSVal.num 40) ?_
  · intro e he hsp
    rcases (by simpa using he :
        e = ("marginTop", JSVal.num 2) ∨ e = ("display", JSVal.str "flex")) with rfl | rfl
    · exact Or.inl ⟨2, by norm_num⟩
    · exact absurd hsp (by decide)
  · simp [boxStyle, propsToStyle, propStyleStep, propToStyle, plainProps, rhythmProps,
      directionMapping, rhythmOrString, truthy, theme20, borderWithRhythm, getProp]
    norm_num

end Claims

end Este
